import Mathlib

/-!
Shallow embedding of the MSP (MultiWii Serial Protocol) frame codec and of the
async stub correlation loop, translated from src/src/packet.rs and
src/src/async_stub.rs. Bytes are modelled as Nat values (a wire byte is < 256);
u8 and u16 casts from the source are modelled with explicit % 256 and % 65536.
-/

set_option maxRecDepth 2000000

deriving instance DecidableEq for Except

namespace Msp

/-- Placeholder for packed_struct PackingError, an external collaborator type.
Only equality of values matters to the frame layer. -/
inductive PackingError
  | invalidValue
  | bufferTooSmall
  | bufferSizeMismatch
deriving DecidableEq

/-- MspError from packet.rs lines 5-12. -/
inductive MspError
  | UnknownDirection (b : Nat)
  | UnknownVersion (b : Nat)
  | CrcMismatch (expected : Nat) (calculated : Nat)
  | OutputBufferSizeMismatch
  | Packing (e : PackingError)
deriving DecidableEq

/-- MspPacketDirection from packet.rs lines 17-22. -/
inductive MspPacketDirection
  | Request
  | Response
  | Error
deriving DecidableEq

/-- From<MspPacketDirection> for u8: Request is 60 (ASCII lt), Response is 62
(ASCII gt), Error is 33 (ASCII bang). -/
def MspPacketDirection.toByte : MspPacketDirection → Nat
  | .Request => 60
  | .Response => 62
  | .Error => 33

/-- TryFrom<u8> for MspPacketDirection, packet.rs lines 34-44. -/
def directionTryFromByte (b : Nat) : Except MspError MspPacketDirection :=
  if b = 60 then .ok .Request
  else if b = 62 then .ok .Response
  else if b = 33 then .ok .Error
  else .error (.UnknownDirection b)

/-- MspVersion from packet.rs lines 48-52. -/
inductive MspVersion
  | V1
  | V2
deriving DecidableEq

/-- From<&MspVersion> for u8: V1 is 77 (ASCII M), V2 is 88 (ASCII X). -/
def MspVersion.toByte : MspVersion → Nat
  | .V1 => 77
  | .V2 => 88

/-- TryFrom<u8> for MspVersion, packet.rs lines 63-72. -/
def versionTryFromByte (b : Nat) : Except MspError MspVersion :=
  if b = 77 then .ok .V1
  else if b = 88 then .ok .V2
  else .error (.UnknownVersion b)

/-- The MspPayload trait of packet.rs lines 74-82, as a record of its three
operations: an encoded length, a decoder from raw bytes and an encoder. -/
structure MspPayloadImpl (P : Type) where
  len : P → Nat
  decode : List Nat → Except MspError P
  encode : P → Except MspError (List Nat)

/-- MspPacket from packet.rs lines 101-107: command code, direction, optional
typed payload. -/
structure MspPacket (P : Type) where
  cmd : Nat
  direction : MspPacketDirection
  data : Option P
deriving DecidableEq

/-- MspParserState from packet.rs lines 109-122. -/
inductive MspParserState
  | Header1
  | Header2
  | Direction
  | FlagV2
  | DataLength
  | DataLengthV2
  | Command
  | CommandV2
  | Data
  | DataV2
  | Crc
deriving DecidableEq

/-- One shift step of CRC-8/DVB-S2 (polynomial 0xD5, MSB first), on an
accumulator already reduced below 256. -/
def crc8ShiftOnce (c : Nat) : Nat :=
  if 128 ≤ c % 256 then (((c % 256) * 2) ^^^ 0xD5) % 256 else ((c % 256) * 2) % 256

/-- Iterate the CRC shift n times. -/
def crc8Shifts : Nat → Nat → Nat
  | 0, c => c
  | n + 1, c => crc8Shifts n (crc8ShiftOnce c)

/-- Digest one byte into the CRC-8/DVB-S2 accumulator, as crc_any CRCu8
crc8dvb_s2 does (init 0, no reflection, no final xor). -/
def crc8UpdateByte (c b : Nat) : Nat :=
  crc8Shifts 8 ((c ^^^ b) % 256)

/-- Digest a byte list into the CRC-8/DVB-S2 accumulator. -/
def crc8Update (c : Nat) (bs : List Nat) : Nat :=
  bs.foldl crc8UpdateByte c

/-- u16::from_le_bytes on a two byte list. -/
def leU16 : List Nat → Nat
  | [a, b] => a + 256 * b
  | _ => 0

/-- MspParser from packet.rs lines 124-135. The CRCu8 engine state is its
accumulator byte. -/
structure MspParser where
  state : MspParserState
  packet_version : MspVersion
  packet_direction : MspPacketDirection
  packet_cmd : Nat
  packet_data_length_remaining : Nat
  packet_data : List Nat
  packet_crc : Nat
  packet_crc_v2 : Nat
deriving DecidableEq

/-- MspParser::new, packet.rs lines 139-150. -/
def MspParser.new : MspParser :=
  { state := .Header1
    packet_version := .V1
    packet_direction := .Request
    packet_cmd := 0
    packet_data_length_remaining := 0
    packet_data := []
    packet_crc := 0
    packet_crc_v2 := 0 }

/-- MspParser::state_is_between_packets, packet.rs lines 153-155. -/
def MspParser.state_is_between_packets (s : MspParser) : Bool :=
  s.state = MspParserState.Header1

/-- MspParser::reset, packet.rs lines 303-311. Note that packet_version is not
reset. -/
def MspParser.reset (s : MspParser) : MspParser :=
  { s with
    state := .Header1
    packet_direction := .Request
    packet_data_length_remaining := 0
    packet_cmd := 0
    packet_data := []
    packet_crc := 0
    packet_crc_v2 := 0 }

/-- The checksum the Crc state compares the input byte against: for V2 the
engine digests the pending payload bytes first (packet.rs lines 265-271). -/
def MspParser.crcCalc (s : MspParser) : Nat :=
  if s.packet_version = MspVersion.V2 then crc8Update s.packet_crc_v2 s.packet_data
  else s.packet_crc

/-- MspParser::parse, packet.rs lines 159-301, one input byte. Returns the
updated parser and the Result value. usize subtraction in the Data and DataV2
states is Nat subtraction; the reachability invariant proved below shows the
remaining counter is at least 1 there, so it never truncates on reachable
states. -/
def MspParser.parse {P : Type} (c : MspPayloadImpl P) (s : MspParser) (input : Nat) :
    MspParser × Except MspError (Option (MspPacket P)) :=
  match s.state with
  | .Header1 =>
      if input = 36 then ({ s with state := .Header2 }, .ok none)
      else (s.reset, .ok none)
  | .Header2 =>
      match versionTryFromByte input with
      | .error e => (s, .error e)
      | .ok v => ({ s with packet_version := v, state := .Direction }, .ok none)
  | .Direction =>
      match directionTryFromByte input with
      | .error e => (s, .error e)
      | .ok d =>
          ({ s with
             packet_direction := d
             state := match s.packet_version with
               | .V1 => .DataLength
               | .V2 => .FlagV2 }, .ok none)
  | .FlagV2 =>
      ({ s with
         state := .CommandV2
         packet_data := []
         packet_crc_v2 := crc8UpdateByte s.packet_crc_v2 input }, .ok none)
  | .CommandV2 =>
      let d := s.packet_data ++ [input]
      if d.length = 2 then
        ({ s with
           packet_cmd := leU16 d
           packet_crc_v2 := crc8Update s.packet_crc_v2 d
           packet_data := []
           state := .DataLengthV2 }, .ok none)
      else ({ s with packet_data := d }, .ok none)
  | .DataLengthV2 =>
      let d := s.packet_data ++ [input]
      if d.length = 2 then
        let rem := leU16 d
        ({ s with
           packet_data_length_remaining := rem
           packet_crc_v2 := crc8Update s.packet_crc_v2 d
           packet_data := []
           state := if rem = 0 then .Crc else .DataV2 }, .ok none)
      else ({ s with packet_data := d }, .ok none)
  | .DataV2 =>
      let rem := s.packet_data_length_remaining - 1
      ({ s with
         packet_data := s.packet_data ++ [input]
         packet_data_length_remaining := rem
         state := if rem = 0 then .Crc else .DataV2 }, .ok none)
  | .DataLength =>
      ({ s with
         packet_data_length_remaining := input
         state := .Command
         packet_crc := s.packet_crc ^^^ input
         packet_data := [] }, .ok none)
  | .Command =>
      ({ s with
         packet_cmd := input
         state := if s.packet_data_length_remaining = 0 then .Crc else .Data
         packet_crc := s.packet_crc ^^^ input }, .ok none)
  | .Data =>
      let rem := s.packet_data_length_remaining - 1
      ({ s with
         packet_data := s.packet_data ++ [input]
         packet_data_length_remaining := rem
         packet_crc := s.packet_crc ^^^ input
         state := if rem = 0 then .Crc else .Data }, .ok none)
  | .Crc =>
      let crcv2 := if s.packet_version = MspVersion.V2 then
          crc8Update s.packet_crc_v2 s.packet_data
        else s.packet_crc_v2
      let pcrc := if s.packet_version = MspVersion.V2 then crcv2 else s.packet_crc
      let s1 : MspParser := { s with packet_crc_v2 := crcv2, packet_crc := pcrc }
      if input ≠ pcrc then
        (s1.reset, .error (.CrcMismatch input pcrc))
      else
        let n := s1.packet_data
        let s2 : MspParser := { s1 with packet_data := [] }
        if n = [] then
          (s2.reset, .ok (some ⟨s2.packet_cmd, s2.packet_direction, none⟩))
        else
          match c.decode n with
          | .error e => (s2, .error e)
          | .ok p => (s2.reset, .ok (some ⟨s2.packet_cmd, s2.packet_direction, some p⟩))

/-- Feed a byte list to the parser, collecting the per byte results. -/
def runParse {P : Type} (c : MspPayloadImpl P) (s : MspParser) (bs : List Nat) :
    MspParser × List (Except MspError (Option (MspPacket P))) :=
  match bs with
  | [] => (s, [])
  | b :: rest =>
      let r := s.parse c b
      let rec' := runParse c r.1 rest
      (rec'.1, r.2 :: rec'.2)

/-- MspPacket::packet_size_bytes, packet.rs lines 322-324. -/
def MspPacket.packet_size_bytes {P : Type} (c : MspPayloadImpl P) (p : MspPacket P) : Nat :=
  6 + (p.data.map c.len).getD 0

/-- MspPacket::packet_size_bytes_v2, packet.rs lines 327-329. -/
def MspPacket.packet_size_bytes_v2 {P : Type} (c : MspPayloadImpl P) (p : MspPacket P) : Nat :=
  9 + (p.data.map c.len).getD 0

/-- MspPacket::serialize, packet.rs lines 332-354, with the buffer given by its
length and the produced bytes returned. The outer Option models the abort of
copy_from_slice when the encoded payload length differs from the slot the
declared length reserved; none never arises for an encoder whose output length
matches its declared len. -/
def MspPacket.serialize {P : Type} (c : MspPayloadImpl P) (pkt : MspPacket P)
    (outLen : Nat) : Option (Except MspError (List Nat)) :=
  if outLen ≠ pkt.packet_size_bytes c then some (.error .OutputBufferSizeMismatch)
  else
    let lenByte := ((pkt.data.map c.len).getD 0) % 256
    let cmdByte := pkt.cmd % 256
    match (match pkt.data with
           | none => Except.ok ([] : List Nat)
           | some p => c.encode p) with
    | .error e => some (.error e)
    | .ok data =>
        if data.length = outLen - 6 then
          let crc := data.foldl (fun a b => a ^^^ b) (lenByte ^^^ cmdByte)
          some (.ok ([36, 77, pkt.direction.toByte, lenByte, cmdByte] ++ data ++ [crc]))
        else none

/-- MspPacket::serialize_v2, packet.rs lines 357-380, same conventions as
serialize. -/
def MspPacket.serialize_v2 {P : Type} (c : MspPayloadImpl P) (pkt : MspPacket P)
    (outLen : Nat) : Option (Except MspError (List Nat)) :=
  if outLen ≠ pkt.packet_size_bytes_v2 c then some (.error .OutputBufferSizeMismatch)
  else
    let cmdLo := pkt.cmd % 65536 % 256
    let cmdHi := pkt.cmd % 65536 / 256
    let dl := ((pkt.data.map c.len).getD 0) % 65536
    let dlLo := dl % 256
    let dlHi := dl / 256
    match (match pkt.data with
           | none => Except.ok ([] : List Nat)
           | some p => c.encode p) with
    | .error e => some (.error e)
    | .ok data =>
        if data.length = outLen - 9 then
          let crc := crc8Update 0 ([0, cmdLo, cmdHi, dlLo, dlHi] ++ data)
          some (.ok ([36, 88, pkt.direction.toByte, 0, cmdLo, cmdHi, dlLo, dlHi]
                     ++ data ++ [crc]))
        else none

/-- The identity payload at the codec boundary: a raw byte vector whose encode
and decode are the identity and whose length is the byte count. -/
def bytesPayload : MspPayloadImpl (List Nat) :=
  { len := List.length
    decode := fun bs => .ok bs
    encode := fun bs => .ok bs }

/-- A payload whose typed decode always fails, standing for a packed struct
whose unpack_from_slice rejects the bytes. -/
def failingPayload : MspPayloadImpl Unit :=
  { len := fun _ => 1
    decode := fun _ => .error (.Packing .invalidValue)
    encode := fun _ => .ok [0] }

/-- A pending request of the async stub (async_stub.rs lines 22-26): the
command code and whether ts.elapsed() exceeded the timeout at the moment the
response arrived (the clock is sampled once per correlation event). -/
structure Pending where
  cmd : Nat
  expired : Bool
deriving DecidableEq

/-- A send on a backchannel performed by the correlation loop. -/
inductive StubEvent
  | timedOut (cmd : Nat)
  | delivered (cmd : Nat)
deriving DecidableEq

/-- The while-let correlation loop of async_stub.rs lines 46-55, run on a
parsed response with command respCmd. Each fuel unit is one loop iteration;
some (queue, events) is the loop exiting with the remaining pending queue and
the backchannel sends it made, none means the loop has not exited within the
given number of iterations. The branch with a non-expired, non-matching front
element neither pops nor breaks, re-entering with an unchanged queue. -/
def correlateFuel : Nat → List Pending → Nat → Option (List Pending × List StubEvent)
  | 0, _, _ => none
  | _ + 1, [], _ => some ([], [])
  | n + 1, p :: rest, respCmd =>
      if p.expired then
        match correlateFuel n rest respCmd with
        | none => none
        | some (q, evs) => some (q, .timedOut p.cmd :: evs)
      else if p.cmd = respCmd then some (rest, [.delivered p.cmd])
      else correlateFuel n (p :: rest) respCmd

/-- Two parser values that agree on every field except possibly
packet_version. MspParser.reset leaves packet_version behind, so a reset
parser is related to a fresh one by this relation. -/
def EqButVersion (s t : MspParser) : Prop :=
  s.state = t.state ∧
  s.packet_direction = t.packet_direction ∧
  s.packet_cmd = t.packet_cmd ∧
  s.packet_data_length_remaining = t.packet_data_length_remaining ∧
  s.packet_data = t.packet_data ∧
  s.packet_crc = t.packet_crc ∧
  s.packet_crc_v2 = t.packet_crc_v2

/-- In the Data and DataV2 states the remaining-length counter is at least 1,
so the usize decrement of packet.rs lines 228 and 256 cannot underflow. -/
def DataInv (s : MspParser) : Prop :=
  s.state = MspParserState.Data ∨ s.state = MspParserState.DataV2 →
    1 ≤ s.packet_data_length_remaining

end Msp

namespace Msp

set_option maxRecDepth 100000

/-- Sanity: the CRC-8/DVB-S2 model matches the spec scenario 2 checksum. -/
example : crc8Update 0 [0, 100, 0, 0, 0] = 143 := by decide

/-- Sanity: spec scenario 1, v1 serialization of cmd 2 with payload
[0xBE, 0xEF]. -/
example :
    MspPacket.serialize bytesPayload ⟨2, .Request, some [190, 239]⟩ 8
      = some (.ok [36, 77, 60, 2, 2, 190, 239, 81]) := by decide

/-- Claim C6: the correlation loop of the async stub, given a pending queue
whose head is not expired and does not match the response command, neither
pops nor breaks: it never exits, for any number of iterations. The claim
(reap expired heads, deliver to the first matching entry, otherwise drop the
frame and continue) describes the intended behavior; the code busy-loops on
the unchanged head instead. -/
theorem claim_C6_correlate_diverges :
    ∀ n : Nat, correlateFuel n [⟨1, false⟩] 2 = none := by
  intro n
  induction n with
  | zero => rfl
  | succ n ih => simpa [correlateFuel] using ih

/-- Claim C1 counterexample: the frame with command 0 and payload Some of the
empty byte vector satisfies the claim hypotheses (payload length 0 at most
255, command at most 255), serializes to a valid 6-byte v1 frame, but parsing
those bytes returns a packet whose data is None, which differs from the
original frame, so the round trip of the claim fails. -/
theorem claim_C1_counterexample :
    MspPacket.serialize bytesPayload ⟨0, .Request, some []⟩ 6
      = some (.ok [36, 77, 60, 0, 0, 0]) ∧
    (runParse bytesPayload MspParser.new [36, 77, 60, 0, 0, 0]).2
      = List.replicate 5 (.ok none) ++ [.ok (some ⟨0, .Request, none⟩)] ∧
    (⟨0, .Request, none⟩ : MspPacket (List Nat)) ≠ ⟨0, .Request, some []⟩ := by
  exact ⟨by decide, by decide, by decide⟩

/-- Claim C2 counterexample: the frame with command 0 and payload Some of the
empty byte vector serializes to a valid 9-byte v2 frame, but parsing those
bytes returns a packet whose data is None, which differs from the original
frame, so the v2 round trip of the claim fails. -/
theorem claim_C2_counterexample :
    MspPacket.serialize_v2 bytesPayload ⟨0, .Request, some []⟩ 9
      = some (.ok [36, 88, 60, 0, 0, 0, 0, 0, 0]) ∧
    (runParse bytesPayload MspParser.new [36, 88, 60, 0, 0, 0, 0, 0, 0]).2
      = List.replicate 8 (.ok none) ++ [.ok (some ⟨0, .Request, none⟩)] ∧
    (⟨0, .Request, none⟩ : MspPacket (List Nat)) ≠ ⟨0, .Request, some []⟩ := by
  exact ⟨by decide, by decide, by decide⟩

/-- Claim C3 counterexample: feeding the dollar byte and then 0 (an invalid
second header byte) returns UnknownVersion, but the parser is left in the
Header2 state, not reset to Header1: state_is_between_packets is false right
after the error, contradicting the claim. -/
theorem claim_C3_counterexample :
    (runParse bytesPayload MspParser.new [36, 0]).2
      = [.ok none, .error (.UnknownVersion 0)] ∧
    ((runParse bytesPayload MspParser.new [36, 0]).1).state_is_between_packets
      = false := by
  exact ⟨by decide, by decide⟩

/-- Claim C4 counterexample: the packet with command 300 (greater than 255)
and no payload, serialized with a buffer of exactly packet_size_bytes, does
not fail at all: serialization succeeds and writes the command truncated to
300 % 256 = 44. MspError has no PayloadTooLarge variant. -/
theorem claim_C4_counterexample :
    MspPacket.packet_size_bytes bytesPayload ⟨300, .Request, none⟩ = 6 ∧
    MspPacket.serialize bytesPayload ⟨300, .Request, none⟩ 6
      = some (.ok [36, 77, 60, 0, 44, 44]) := by
  exact ⟨by decide, by decide⟩

/-- Claim C8 counterexample: with a payload type whose decode fails, feed the
v1 frame bytes 36, 77, 60, 1, 5, 9, 13 (declared payload length 1, payload
byte 9, matching checksum 13) and then the byte 13 again. The first checksum
byte hits the failing decode, the parser stays in the Crc state with an
emptied buffer, and the repeated byte 13 then emits a packet with data = None
although the declared on-wire payload length of the frame was 1, not 0. -/
theorem claim_C8_counterexample :
    (runParse failingPayload MspParser.new [36, 77, 60, 1, 5, 9, 13, 13]).2
      = [.ok none, .ok none, .ok none, .ok none, .ok none, .ok none,
         .error (.Packing .invalidValue), .ok (some ⟨5, .Request, none⟩)] := by
  decide

end Msp

namespace Msp

/-- On a checksum mismatch in the Crc state, parse returns CrcMismatch with
the wire byte as expected and the computed checksum as calculated, and the
result parser is exactly the reset of the input parser. -/
lemma parse_crc_mismatch {P : Type} (c : MspPayloadImpl P) (s : MspParser) (b : Nat)
    (hst : s.state = MspParserState.Crc) (hb : b ≠ s.crcCalc) :
    MspParser.parse c s b = (s.reset, .error (.CrcMismatch b s.crcCalc)) := by
  obtain ⟨st, v, d, cmd, rem, data, crc, cv2⟩ := s
  subst hst
  simp only [MspParser.crcCalc] at hb ⊢
  cases v
  · rw [if_neg (by decide : ¬ (MspVersion.V1 = MspVersion.V2))] at hb
    simp [MspParser.parse, MspParser.reset, hb]
  · rw [if_pos rfl] at hb
    simp [MspParser.parse, MspParser.reset, hb]

/-- A reset parser is at the frame boundary. -/
lemma reset_between (s : MspParser) : (s.reset).state_is_between_packets = true := rfl

/-- Claim C5: in the Crc state, a byte that differs from the computed checksum
makes parse return CrcMismatch with expected set to the wire byte and
calculated set to the computed checksum, and the parser resets (the result is
exactly MspParser.reset of the input state, so state_is_between_packets holds);
concretely, the v1 scenario 1 frame with its last byte replaced by 0x52 ends
with CrcMismatch expected 0x52 calculated 0x51. -/
theorem claim_C5_crc_mismatch :
    (∀ (P : Type) (c : MspPayloadImpl P) (s : MspParser) (b : Nat),
       s.state = MspParserState.Crc → b ≠ s.crcCalc →
       (MspParser.parse c s b).1 = s.reset ∧
       (MspParser.parse c s b).2 = .error (.CrcMismatch b s.crcCalc) ∧
       ((MspParser.parse c s b).1).state_is_between_packets = true) ∧
    (runParse bytesPayload MspParser.new [36, 77, 60, 2, 2, 190, 239, 82]).2
      = List.replicate 7 (Except.ok none)
        ++ [.error (.CrcMismatch 82 81)] := by
  constructor
  · intro P c s b hst hb
    rw [parse_crc_mismatch c s b hst hb]
    exact ⟨rfl, rfl, reset_between s⟩
  · decide

/-- Claim C5 witness: the general statement applied to the concrete Crc state
reached by the scenario 1 frame prefix. -/
theorem claim_C5_witness :
    (MspParser.parse bytesPayload
        ⟨.Crc, .V1, .Request, 2, 0, [190, 239], 81, 0⟩ 82).2
      = .error (.CrcMismatch 82 81) ∧
    ((MspParser.parse bytesPayload
        ⟨.Crc, .V1, .Request, 2, 0, [190, 239], 81, 0⟩ 82).1).state_is_between_packets
      = true := by
  have h := claim_C5_crc_mismatch.1 (List Nat) bytesPayload
    ⟨.Crc, .V1, .Request, 2, 0, [190, 239], 81, 0⟩ 82 rfl (by decide)
  exact ⟨by simpa [MspParser.crcCalc] using h.2.1, h.2.2⟩

/-- Claim C3 amended: a checksum mismatch resets the parser to Header1 and
reports CrcMismatch, but an invalid second header byte returns UnknownVersion
and an invalid direction byte returns UnknownDirection with the parser left
unchanged in the Header2 or Direction state, so state_is_between_packets is
false right after those two errors. -/
theorem claim_C3_amended :
    (∀ (P : Type) (c : MspPayloadImpl P) (s : MspParser) (b : Nat),
       s.state = MspParserState.Header2 → b ≠ 77 → b ≠ 88 →
       MspParser.parse c s b = (s, .error (.UnknownVersion b)) ∧
       ((MspParser.parse c s b).1).state_is_between_packets = false) ∧
    (∀ (P : Type) (c : MspPayloadImpl P) (s : MspParser) (b : Nat),
       s.state = MspParserState.Direction → b ≠ 60 → b ≠ 62 → b ≠ 33 →
       MspParser.parse c s b = (s, .error (.UnknownDirection b)) ∧
       ((MspParser.parse c s b).1).state_is_between_packets = false) ∧
    (∀ (P : Type) (c : MspPayloadImpl P) (s : MspParser) (b : Nat),
       s.state = MspParserState.Crc → b ≠ s.crcCalc →
       (MspParser.parse c s b).1 = s.reset ∧
       (MspParser.parse c s b).2 = .error (.CrcMismatch b s.crcCalc) ∧
       ((MspParser.parse c s b).1).state_is_between_packets = true) := by
  refine ⟨?_, ?_, ?_⟩
  · intro P c s b hst h77 h88
    obtain ⟨st, v, d, cmd, rem, data, crc, cv2⟩ := s
    subst hst
    simp [MspParser.parse, versionTryFromByte, h77, h88,
      MspParser.state_is_between_packets]
  · intro P c s b hst h60 h62 h33
    obtain ⟨st, v, d, cmd, rem, data, crc, cv2⟩ := s
    subst hst
    simp [MspParser.parse, directionTryFromByte, h60, h62, h33,
      MspParser.state_is_between_packets]
  · intro P c s b hst hb
    rw [parse_crc_mismatch c s b hst hb]
    exact ⟨rfl, rfl, reset_between s⟩

/-- Claim C3 witness: the amended statement applied at concrete states for the
three error kinds. -/
theorem claim_C3_witness :
    (MspParser.parse bytesPayload ⟨.Header2, .V1, .Request, 0, 0, [], 0, 0⟩ 0
       = (⟨.Header2, .V1, .Request, 0, 0, [], 0, 0⟩, .error (.UnknownVersion 0)) ∧
     ((MspParser.parse bytesPayload
         ⟨.Header2, .V1, .Request, 0, 0, [], 0, 0⟩ 0).1).state_is_between_packets
       = false) ∧
    (MspParser.parse bytesPayload ⟨.Direction, .V1, .Request, 0, 0, [], 0, 0⟩ 1
       = (⟨.Direction, .V1, .Request, 0, 0, [], 0, 0⟩, .error (.UnknownDirection 1)) ∧
     ((MspParser.parse bytesPayload
         ⟨.Direction, .V1, .Request, 0, 0, [], 0, 0⟩ 1).1).state_is_between_packets
       = false) ∧
    ((MspParser.parse bytesPayload ⟨.Crc, .V1, .Request, 2, 0, [190, 239], 81, 0⟩ 82).1
       = MspParser.reset ⟨.Crc, .V1, .Request, 2, 0, [190, 239], 81, 0⟩ ∧
     ((MspParser.parse bytesPayload
         ⟨.Crc, .V1, .Request, 2, 0, [190, 239], 81, 0⟩ 82).1).state_is_between_packets
       = true) := by
  refine ⟨?_, ?_, ?_⟩
  · exact claim_C3_amended.1 (List Nat) bytesPayload
      ⟨.Header2, .V1, .Request, 0, 0, [], 0, 0⟩ 0 rfl (by decide) (by decide)
  · exact claim_C3_amended.2.1 (List Nat) bytesPayload
      ⟨.Direction, .V1, .Request, 0, 0, [], 0, 0⟩ 1 rfl (by decide) (by decide) (by decide)
  · have h := claim_C3_amended.2.2 (List Nat) bytesPayload
      ⟨.Crc, .V1, .Request, 2, 0, [190, 239], 81, 0⟩ 82 rfl (by decide)
    exact ⟨h.1, h.2.2⟩

/-- Claim C9: in the Crc state, when the checksum byte matches but the typed
payload decode fails, parse returns the decode error and does not reset: the
state stays Crc, state_is_between_packets is false, and the payload buffer has
been emptied. -/
theorem claim_C9_decode_error_no_reset :
    ∀ (P : Type) (c : MspPayloadImpl P) (s : MspParser) (e : MspError),
      s.state = MspParserState.Crc →
      s.packet_data ≠ [] →
      c.decode s.packet_data = .error e →
      (MspParser.parse c s s.crcCalc).2 = .error e ∧
      ((MspParser.parse c s s.crcCalc).1).state = MspParserState.Crc ∧
      ((MspParser.parse c s s.crcCalc).1).state_is_between_packets = false ∧
      ((MspParser.parse c s s.crcCalc).1).packet_data = [] := by
  intro P c s e hst hne hdec
  obtain ⟨st, v, d, cmd, rem, data, crc, cv2⟩ := s
  subst hst
  cases v <;>
    simp_all [MspParser.parse, MspParser.crcCalc,
      MspParser.state_is_between_packets]

/-- Claim C9 witness: a concrete Crc state with payload byte 9 and matching
checksum 13, with a payload codec whose decode fails. -/
theorem claim_C9_witness :
    (MspParser.parse failingPayload ⟨.Crc, .V1, .Request, 5, 0, [9], 13, 0⟩ 13).2
      = .error (.Packing .invalidValue) ∧
    ((MspParser.parse failingPayload
        ⟨.Crc, .V1, .Request, 5, 0, [9], 13, 0⟩ 13).1).state = MspParserState.Crc ∧
    ((MspParser.parse failingPayload
        ⟨.Crc, .V1, .Request, 5, 0, [9], 13, 0⟩ 13).1).state_is_between_packets
      = false ∧
    ((MspParser.parse failingPayload
        ⟨.Crc, .V1, .Request, 5, 0, [9], 13, 0⟩ 13).1).packet_data = [] := by
  have h := claim_C9_decode_error_no_reset Unit failingPayload
    ⟨.Crc, .V1, .Request, 5, 0, [9], 13, 0⟩ (.Packing .invalidValue)
    rfl (by decide) rfl
  simpa [MspParser.crcCalc] using h

/-- Claim C4 amended: v1 serialization performs no payload or command size
validation. With a buffer of exactly packet_size_bytes and an encoder whose
output length matches the declared length, it always succeeds, writing the
declared length modulo 256 as the length byte and the command modulo 256 as
the command byte; MspError has no PayloadTooLarge variant. -/
theorem claim_C4_amended :
    ∀ (P : Type) (c : MspPayloadImpl P) (pkt : MspPacket P) (data : List Nat),
      (match pkt.data with
       | none => Except.ok ([] : List Nat)
       | some p => c.encode p) = .ok data →
      data.length = (pkt.data.map c.len).getD 0 →
      MspPacket.serialize c pkt (pkt.packet_size_bytes c)
        = some (.ok ([36, 77, pkt.direction.toByte,
                      ((pkt.data.map c.len).getD 0) % 256, pkt.cmd % 256]
                     ++ data
                     ++ [data.foldl (fun a b => a ^^^ b)
                          ((((pkt.data.map c.len).getD 0) % 256)
                            ^^^ (pkt.cmd % 256))])) := by
  intro P c pkt data henc hlen
  simp [MspPacket.serialize, MspPacket.packet_size_bytes, henc, hlen]

/-- Claim C4 witness: a packet with command 300 and a 256-byte payload, both
over the v1 limits, serializes successfully with truncated fields. -/
theorem claim_C4_witness :
    MspPacket.serialize bytesPayload
        ⟨300, .Request, some (List.replicate 256 7)⟩ 262
      = some (.ok ([36, 77, 60, 0, 44] ++ List.replicate 256 7 ++ [44])) := by
  have h := claim_C4_amended (List Nat) bytesPayload
    ⟨300, .Request, some (List.replicate 256 7)⟩ (List.replicate 256 7)
    rfl (by decide)
  have h2 : MspPacket.packet_size_bytes bytesPayload
      (⟨300, .Request, some (List.replicate 256 7)⟩ : MspPacket (List Nat)) = 262 := by
    decide
  rw [h2] at h
  exact h.trans (by decide)

end Msp

namespace Msp

/-- One parse step preserves the Data-state lower bound on the remaining
counter, from any state. -/
lemma parse_DataInv {P : Type} (c : MspPayloadImpl P) (s : MspParser) (b : Nat)
    (h : DataInv s) : DataInv (MspParser.parse c s b).1 := by
  obtain ⟨st, v, d, cmd, rem, data, crc, cv2⟩ := s
  cases st
  case Header1 =>
    by_cases hb : b = 36 <;>
      simp [MspParser.parse, DataInv, MspParser.reset, hb]
  case Header2 =>
    rcases hv : versionTryFromByte b with e | vv <;>
      simp [MspParser.parse, DataInv, hv]
  case Direction =>
    rcases hd : directionTryFromByte b with e | dd
    · simp [MspParser.parse, DataInv, hd]
    · cases v <;> simp [MspParser.parse, DataInv, hd]
  case FlagV2 => simp [MspParser.parse, DataInv]
  case DataLength => simp [MspParser.parse, DataInv]
  case DataLengthV2 =>
    by_cases hl : data.length = 1
    · by_cases h0 : leU16 (data ++ [b]) = 0 <;>
        simp [MspParser.parse, DataInv, hl, h0] <;> omega
    · simp [MspParser.parse, DataInv, hl]
  case Command =>
    by_cases h0 : rem = 0 <;> simp [MspParser.parse, DataInv, h0] <;> omega
  case CommandV2 =>
    by_cases hl : data.length = 1 <;>
      simp [MspParser.parse, DataInv, hl]
  case Data =>
    have hr : 1 ≤ rem := h (Or.inl rfl)
    by_cases h0 : rem - 1 = 0 <;> simp [MspParser.parse, DataInv, h0] <;> omega
  case DataV2 =>
    have hr : 1 ≤ rem := h (Or.inr rfl)
    by_cases h0 : rem - 1 = 0 <;> simp [MspParser.parse, DataInv, h0] <;> omega
  case Crc =>
    cases v
    · by_cases hb : b = crc
      · by_cases hn : data = []
        · simp [MspParser.parse, DataInv, MspParser.reset, hb, hn]
        · rcases hdec : c.decode data with e | p <;>
            simp [MspParser.parse, DataInv, MspParser.reset, hb, hn, hdec]
      · simp [MspParser.parse, DataInv, MspParser.reset, hb]
    · by_cases hb : b = crc8Update cv2 data
      · by_cases hn : data = []
        · simp [MspParser.parse, DataInv, MspParser.reset, hb, hn]
        · rcases hdec : c.decode data with e | p <;>
            simp [MspParser.parse, DataInv, MspParser.reset, hb, hn, hdec]
      · simp [MspParser.parse, DataInv, MspParser.reset, hb]

/-- Feeding any byte list preserves the Data-state lower bound. -/
lemma runParse_DataInv {P : Type} (c : MspPayloadImpl P) (bs : List Nat) :
    ∀ s : MspParser, DataInv s → DataInv (runParse c s bs).1 := by
  induction bs with
  | nil => intro s h; simpa [runParse] using h
  | cons b rest ih =>
      intro s h
      simpa [runParse] using ih _ (parse_DataInv c s b h)

/-- Claim C10: the invariant that in the Data and DataV2 states the
remaining-length counter is at least 1 is preserved by every parse step, and
holds in every state reachable from a fresh parser, so the usize decrement in
those states never underflows. -/
theorem claim_C10_remaining_invariant :
    (∀ (P : Type) (c : MspPayloadImpl P) (s : MspParser) (b : Nat),
       DataInv s → DataInv (MspParser.parse c s b).1) ∧
    (∀ (P : Type) (c : MspPayloadImpl P) (bs : List Nat),
       DataInv (runParse c MspParser.new bs).1) := by
  refine ⟨fun P c s b h => parse_DataInv c s b h,
          fun P c bs => runParse_DataInv c bs MspParser.new ?_⟩
  intro h
  rcases h with h | h <;> simp [MspParser.new] at h

/-- Claim C10 witness: the invariant applied at a concrete step and a concrete
reachable state that is mid-payload (after the header, length 2, command 2
and one payload byte of the scenario 1 frame, the parser sits in the Data
state with one byte remaining). -/
theorem claim_C10_witness :
    DataInv (MspParser.parse bytesPayload MspParser.new 36).1 ∧
    DataInv (runParse bytesPayload MspParser.new [36, 77, 60, 2, 2, 190]).1 := by
  exact ⟨claim_C10_remaining_invariant.1 (List Nat) bytesPayload MspParser.new 36
           (by intro h; rcases h with h | h <;> simp [MspParser.new] at h),
         claim_C10_remaining_invariant.2 (List Nat) bytesPayload
           [36, 77, 60, 2, 2, 190]⟩

/-- Claim C8 amended: whenever a parse step emits a packet, its data is None
exactly when the payload buffer accumulated for the frame is empty at the
checksum step, and a nonempty buffer is always delivered as Some of the value
decoded from exactly those buffered bytes. (On the error-free path the buffer
is empty exactly when the declared on-wire length was zero; after a payload
decode error the parser re-enters Crc with an emptied buffer, which is the
counterexample to the original claim.) -/
theorem claim_C8_amended :
    ∀ (P : Type) (c : MspPayloadImpl P) (s t : MspParser) (b : Nat)
      (pkt : MspPacket P),
      MspParser.parse c s b = (t, .ok (some pkt)) →
      (pkt.data = none ↔ s.packet_data = []) ∧
      (s.packet_data ≠ [] →
        ∃ p, c.decode s.packet_data = .ok p ∧ pkt.data = some p) := by
  intro P c s t b pkt h
  obtain ⟨st, v, d, cmd, rem, data, crc, cv2⟩ := s
  cases st
  case Header1 =>
    by_cases hb : b = 36 <;> simp [MspParser.parse, hb] at h
  case Header2 =>
    rcases hv : versionTryFromByte b with e | vv <;>
      simp [MspParser.parse, hv] at h
  case Direction =>
    rcases hd : directionTryFromByte b with e | dd <;>
      simp [MspParser.parse, hd] at h
  case FlagV2 => simp [MspParser.parse] at h
  case DataLength => simp [MspParser.parse] at h
  case DataLengthV2 =>
    by_cases hl : data.length = 1 <;> simp [MspParser.parse, hl] at h
  case Command => simp [MspParser.parse] at h
  case CommandV2 =>
    by_cases hl : data.length = 1 <;> simp [MspParser.parse, hl] at h
  case Data => simp [MspParser.parse] at h
  case DataV2 => simp [MspParser.parse] at h
  case Crc =>
    cases v
    · by_cases hb : b = crc
      · by_cases hn : data = []
        · simp [MspParser.parse, hb, hn] at h
          obtain ⟨h1, h2⟩ := h
          subst h2
          simp [hn]
        · rcases hdec : c.decode data with e | p
          · simp [MspParser.parse, hb, hn, hdec] at h
          · simp [MspParser.parse, hb, hn, hdec] at h
            obtain ⟨h1, h2⟩ := h
            subst h2
            exact ⟨by simp [hn], fun _ => ⟨p, rfl, rfl⟩⟩
      · simp [MspParser.parse, hb] at h
    · by_cases hb : b = crc8Update cv2 data
      · by_cases hn : data = []
        · simp [MspParser.parse, hb, hn] at h
          obtain ⟨h1, h2⟩ := h
          subst h2
          simp [hn]
        · rcases hdec : c.decode data with e | p
          · simp [MspParser.parse, hb, hn, hdec] at h
          · simp [MspParser.parse, hb, hn, hdec] at h
            obtain ⟨h1, h2⟩ := h
            subst h2
            exact ⟨by simp [hn], fun _ => ⟨p, rfl, rfl⟩⟩
      · simp [MspParser.parse, hb] at h

/-- Claim C8 witness: the amended statement applied to a concrete Crc state
with a one-byte buffer and matching checksum under the identity byte codec. -/
theorem claim_C8_witness :
    ((⟨3, .Request, some [7]⟩ : MspPacket (List Nat)).data = none ↔
      (⟨.Crc, .V1, .Request, 3, 0, [7], 7, 0⟩ : MspParser).packet_data = []) ∧
    ((⟨.Crc, .V1, .Request, 3, 0, [7], 7, 0⟩ : MspParser).packet_data ≠ [] →
      ∃ p, bytesPayload.decode
          (⟨.Crc, .V1, .Request, 3, 0, [7], 7, 0⟩ : MspParser).packet_data
        = .ok p ∧
        (⟨3, .Request, some [7]⟩ : MspPacket (List Nat)).data = some p) := by
  exact claim_C8_amended (List Nat) bytesPayload
    ⟨.Crc, .V1, .Request, 3, 0, [7], 7, 0⟩ MspParser.new 7
    ⟨3, .Request, some [7]⟩ (by decide)

end Msp

namespace Msp

/-- One step of the version bisimulation: from the Header1 or Header2 state,
overriding packet_version changes no output, and the successor states are
either identical or again differ only in packet_version while sitting in
Header1 or Header2. packet_version is only read after a successful Header2
step, which overwrites it in both runs. -/
lemma parse_bisim {P : Type} (c : MspPayloadImpl P) (s : MspParser)
    (w : MspVersion) (b : Nat)
    (hSt : s.state = MspParserState.Header1 ∨ s.state = MspParserState.Header2) :
    (MspParser.parse c { s with packet_version := w } b).2
      = (MspParser.parse c s b).2 ∧
    ((MspParser.parse c { s with packet_version := w } b).1
        = (MspParser.parse c s b).1 ∨
      ((MspParser.parse c { s with packet_version := w } b).1
          = { (MspParser.parse c s b).1 with packet_version := w } ∧
        ((MspParser.parse c s b).1.state = MspParserState.Header1 ∨
         (MspParser.parse c s b).1.state = MspParserState.Header2))) := by
  obtain ⟨st, v, d, cmd, rem, data, crc, cv2⟩ := s
  rcases hSt with h | h <;> subst h
  · by_cases hb : b = 36 <;>
      simp [MspParser.parse, MspParser.reset, hb]
  · rcases hv : versionTryFromByte b with e | vv <;>
      simp [MspParser.parse, hv]

/-- Outputs of a run do not depend on the packet_version field when starting
from Header1 or Header2. -/
lemma runParse_version_outputs {P : Type} (c : MspPayloadImpl P) :
    ∀ (bs : List Nat) (s : MspParser) (w : MspVersion),
      (s.state = MspParserState.Header1 ∨ s.state = MspParserState.Header2) →
      (runParse c { s with packet_version := w } bs).2
        = (runParse c s bs).2 := by
  intro bs
  induction bs with
  | nil => intro s w h; simp [runParse]
  | cons b rest ih =>
      intro s w h
      obtain ⟨ho, hrec⟩ := parse_bisim c s w b h
      rcases hrec with heq | ⟨heq, hst⟩
      · simp only [runParse]
        rw [ho, heq]
      · simp only [runParse]
        rw [ho, heq, ih _ w hst]

/-- Claim C7: after feeding any byte sequence to a fresh parser, reset leaves
the parser observationally equivalent to a freshly constructed one: any
further byte sequence produces identical parse results. The reset parser
differs from a fresh one only in packet_version, which is overwritten before
it is ever read. -/
theorem claim_C7_reset_fresh :
    ∀ (P : Type) (c : MspPayloadImpl P) (pre bs : List Nat),
      (runParse c ((runParse c MspParser.new pre).1.reset) bs).2
        = (runParse c MspParser.new bs).2 := by
  intro P c pre bs
  have h : ((runParse c MspParser.new pre).1).reset
      = { MspParser.new with
          packet_version := ((runParse c MspParser.new pre).1).packet_version } := rfl
  rw [h]
  exact runParse_version_outputs c bs MspParser.new
    ((runParse c MspParser.new pre).1).packet_version (Or.inl rfl)

end Msp

namespace Msp

/-- Final state of a run over an appended list. -/
lemma runParse_append_fst {P : Type} (c : MspPayloadImpl P) (s : MspParser)
    (xs ys : List Nat) :
    (runParse c s (xs ++ ys)).1 = (runParse c (runParse c s xs).1 ys).1 := by
  induction xs generalizing s with
  | nil => simp [runParse]
  | cons b rest ih => simp [runParse, ih]

/-- Outputs of a run over an appended list. -/
lemma runParse_append_snd {P : Type} (c : MspPayloadImpl P) (s : MspParser)
    (xs ys : List Nat) :
    (runParse c s (xs ++ ys)).2
      = (runParse c s xs).2 ++ (runParse c (runParse c s xs).1 ys).2 := by
  induction xs generalizing s with
  | nil => simp [runParse]
  | cons b rest ih => simp [runParse, ih]

/-- Running the v1 Data state over exactly the remaining number of payload
bytes: every byte is consumed silently, the bytes are appended to the buffer
and folded into the XOR checksum, and the parser moves to Crc. -/
lemma runParse_data_v1 {P : Type} (c : MspPayloadImpl P) :
    ∀ (bs : List Nat), bs ≠ [] →
      ∀ (v : MspVersion) (d : MspPacketDirection) (cmd : Nat) (pre : List Nat)
        (crc cv2 : Nat),
        runParse c ⟨.Data, v, d, cmd, bs.length, pre, crc, cv2⟩ bs
          = (⟨.Crc, v, d, cmd, 0, pre ++ bs,
              bs.foldl (fun a b => a ^^^ b) crc, cv2⟩,
             List.replicate bs.length (.ok none)) := by
  intro bs
  induction bs with
  | nil => intro h; exact absurd rfl h
  | cons b rest ih =>
      intro _ v d cmd pre crc cv2
      by_cases hr : rest = []
      · subst hr
        simp [runParse, MspParser.parse]
      · have hrl : rest.length ≠ 0 := by
          simpa [List.length_eq_zero] using hr
        have ihr := ih hr v d cmd (pre ++ [b]) (crc ^^^ b) cv2
        simp [runParse, MspParser.parse, hrl, ihr, List.replicate_succ]

/-- Running the DataV2 state over exactly the remaining number of payload
bytes: bytes are buffered, the CRC engine is untouched until Crc, and the
parser moves to Crc. -/
lemma runParse_data_v2 {P : Type} (c : MspPayloadImpl P) :
    ∀ (bs : List Nat), bs ≠ [] →
      ∀ (v : MspVersion) (d : MspPacketDirection) (cmd : Nat) (pre : List Nat)
        (crc cv2 : Nat),
        runParse c ⟨.DataV2, v, d, cmd, bs.length, pre, crc, cv2⟩ bs
          = (⟨.Crc, v, d, cmd, 0, pre ++ bs, crc, cv2⟩,
             List.replicate bs.length (.ok none)) := by
  intro bs
  induction bs with
  | nil => intro h; exact absurd rfl h
  | cons b rest ih =>
      intro _ v d cmd pre crc cv2
      by_cases hr : rest = []
      · subst hr
        simp [runParse, MspParser.parse]
      · have hrl : rest.length ≠ 0 := by
          simpa [List.length_eq_zero] using hr
        have ihr := ih hr v d cmd (pre ++ [b]) crc cv2
        simp [runParse, MspParser.parse, hrl, ihr, List.replicate_succ]

/-- v1 serialization with a matching buffer and a length-consistent encoder
succeeds and produces the exact header, payload and XOR checksum bytes. -/
lemma serialize_ok {P : Type} (c : MspPayloadImpl P) (pkt : MspPacket P)
    (data : List Nat)
    (henc : (match pkt.data with
             | none => Except.ok ([] : List Nat)
             | some p => c.encode p) = .ok data)
    (hlen : data.length = (pkt.data.map c.len).getD 0) :
    MspPacket.serialize c pkt (pkt.packet_size_bytes c)
      = some (.ok ([36, 77, pkt.direction.toByte,
                    ((pkt.data.map c.len).getD 0) % 256, pkt.cmd % 256]
                   ++ data
                   ++ [data.foldl (fun a b => a ^^^ b)
                        ((((pkt.data.map c.len).getD 0) % 256)
                          ^^^ (pkt.cmd % 256))])) := by
  simp [MspPacket.serialize, MspPacket.packet_size_bytes, henc, hlen]

/-- Claim C1 amended: the v1 round trip holds for every frame whose payload,
when present, encodes to between 1 and 255 bytes consistently with its
declared length and decodes back to itself, and whose command is at most 255.
Serialization into a buffer of exactly packet_size_bytes succeeds, feeding the
bytes to a fresh parser returns Ok none on every byte but the last, returns
the original frame on the last byte, and leaves the parser at the frame
boundary. (A frame whose data is Some of a zero-length payload comes back
with data = None, the counterexample to the original claim.) -/
theorem claim_C1_roundtrip_v1_amended :
    ∀ (P : Type) (c : MspPayloadImpl P) (pkt : MspPacket P) (data : List Nat),
      (match pkt.data with
       | none => Except.ok ([] : List Nat)
       | some p => c.encode p) = .ok data →
      data.length = (pkt.data.map c.len).getD 0 →
      (pkt.data.map c.len).getD 0 ≤ 255 →
      pkt.cmd ≤ 255 →
      (∀ p, pkt.data = some p → c.decode data = .ok p ∧ 1 ≤ c.len p) →
      ∃ out : List Nat,
        MspPacket.serialize c pkt (pkt.packet_size_bytes c) = some (.ok out) ∧
        out.length = pkt.packet_size_bytes c ∧
        (runParse c MspParser.new out).2
          = List.replicate (out.length - 1) (Except.ok none)
            ++ [Except.ok (some pkt)] ∧
        ((runParse c MspParser.new out).1).state_is_between_packets = true := by
  intro P c pkt data henc hlen hsz hcmd hdec
  obtain ⟨cmd, dir, dataOpt⟩ := pkt
  cases dataOpt with
  | none =>
      have hcm : cmd % 256 = cmd :=
        Nat.mod_eq_of_lt (lt_of_le_of_lt hcmd (by norm_num))
      have hd : data = [] := by
        have := henc
        simp only at this
        exact (Except.ok.inj this).symm
      subst hd
      have hser : MspPacket.serialize c ⟨cmd, dir, none⟩
          (MspPacket.packet_size_bytes c ⟨cmd, dir, none⟩)
          = some (.ok [36, 77, dir.toByte, 0, cmd, cmd]) := by
        refine (serialize_ok c ⟨cmd, dir, none⟩ [] henc hlen).trans ?_
        simp [hcm]
      have hrun : runParse c MspParser.new [36, 77, dir.toByte, 0, cmd, cmd]
          = (MspParser.new,
             [.ok none, .ok none, .ok none, .ok none, .ok none,
              .ok (some ⟨cmd, dir, none⟩)]) := by
        cases dir <;>
          simp [runParse, MspParser.parse, MspParser.new, MspParser.reset,
            versionTryFromByte, directionTryFromByte, MspPacketDirection.toByte]
      refine ⟨[36, 77, dir.toByte, 0, cmd, cmd], hser, ?_, ?_, ?_⟩
      · simp [MspPacket.packet_size_bytes]
      · rw [hrun]
        simp [List.replicate_succ]
      · rw [hrun]
        simp [MspParser.state_is_between_packets, MspParser.new]
  | some p =>
      obtain ⟨hdecp, hlp⟩ := hdec p rfl
      have hlen1 : data.length = c.len p := by simpa using hlen
      have hsz1 : c.len p ≤ 255 := by simpa using hsz
      have hcm : cmd % 256 = cmd :=
        Nat.mod_eq_of_lt (lt_of_le_of_lt hcmd (by norm_num))
      have hd0 : data ≠ [] := by
        intro h
        rw [h] at hlen1
        simp at hlen1
        omega
      have hld : data.length ≠ 0 := by
        simpa [List.length_eq_zero] using hd0
      have hLm : data.length % 256 = data.length := Nat.mod_eq_of_lt (by omega)
      have hser : MspPacket.serialize c ⟨cmd, dir, some p⟩
          (MspPacket.packet_size_bytes c ⟨cmd, dir, some p⟩)
          = some (.ok ([36, 77, dir.toByte, data.length, cmd]
              ++ (data
                  ++ [data.foldl (fun a b => a ^^^ b)
                       (data.length ^^^ cmd)]))) := by
        refine (serialize_ok c ⟨cmd, dir, some p⟩ data henc hlen).trans ?_
        have hgd : (((some p : Option P)).map c.len).getD 0 = data.length := by
          simpa using hlen1.symm
        rw [hgd, hLm, hcm]
        simp
      have hpre : runParse c MspParser.new [36, 77, dir.toByte, data.length, cmd]
          = (⟨.Data, .V1, dir, cmd, data.length, [], data.length ^^^ cmd, 0⟩,
             [.ok none, .ok none, .ok none, .ok none, .ok none]) := by
        cases dir <;>
          simp [runParse, MspParser.parse, MspParser.new,
            versionTryFromByte, directionTryFromByte, MspPacketDirection.toByte,
            hld]
      have hdata := runParse_data_v1 c data hd0 .V1 dir cmd []
        (data.length ^^^ cmd) 0
      simp only [List.nil_append] at hdata
      have hfin : runParse c
          ⟨.Crc, .V1, dir, cmd, 0, data,
            data.foldl (fun a b => a ^^^ b) (data.length ^^^ cmd), 0⟩
          [data.foldl (fun a b => a ^^^ b) (data.length ^^^ cmd)]
          = (MspParser.new, [.ok (some ⟨cmd, dir, some p⟩)]) := by
        simp [runParse, MspParser.parse, MspParser.reset, MspParser.new,
          hd0, hdecp]
      have hpre1 : (runParse c MspParser.new
          [36, 77, dir.toByte, data.length, cmd]).1
          = ⟨.Data, .V1, dir, cmd, data.length, [], data.length ^^^ cmd, 0⟩ := by
        rw [hpre]
      have hpre2 : (runParse c MspParser.new
          [36, 77, dir.toByte, data.length, cmd]).2
          = [.ok none, .ok none, .ok none, .ok none, .ok none] := by
        rw [hpre]
      have hdata1 : (runParse c
          ⟨.Data, .V1, dir, cmd, data.length, [], data.length ^^^ cmd, 0⟩
          data).1
          = ⟨.Crc, .V1, dir, cmd, 0, data,
              data.foldl (fun a b => a ^^^ b) (data.length ^^^ cmd), 0⟩ := by
        rw [hdata]
      have hdata2 : (runParse c
          ⟨.Data, .V1, dir, cmd, data.length, [], data.length ^^^ cmd, 0⟩
          data).2
          = List.replicate data.length (.ok none) := by
        rw [hdata]
      have hfin1 : (runParse c
          ⟨.Crc, .V1, dir, cmd, 0, data,
            data.foldl (fun a b => a ^^^ b) (data.length ^^^ cmd), 0⟩
          [data.foldl (fun a b => a ^^^ b) (data.length ^^^ cmd)]).1
          = MspParser.new := by
        rw [hfin]
      have hfin2 : (runParse c
          ⟨.Crc, .V1, dir, cmd, 0, data,
            data.foldl (fun a b => a ^^^ b) (data.length ^^^ cmd), 0⟩
          [data.foldl (fun a b => a ^^^ b) (data.length ^^^ cmd)]).2
          = [.ok (some ⟨cmd, dir, some p⟩)] := by
        rw [hfin]
      refine ⟨[36, 77, dir.toByte, data.length, cmd]
          ++ (data ++ [data.foldl (fun a b => a ^^^ b) (data.length ^^^ cmd)]),
        hser, ?_, ?_, ?_⟩
      · simp only [List.length_append, List.length_cons, List.length_nil,
          MspPacket.packet_size_bytes, Option.map_some', Option.getD_some]
        omega
      · have hol : (([36, 77, dir.toByte, data.length, cmd]
            ++ (data
                ++ [data.foldl (fun a b => a ^^^ b)
                     (data.length ^^^ cmd)])).length) - 1
            = 5 + data.length := by
          simp only [List.length_append, List.length_cons, List.length_nil]
          omega
        rw [runParse_append_snd, hpre1, hpre2, runParse_append_snd,
          hdata1, hdata2, hfin2, hol, List.replicate_add]
        have h5 : List.replicate 5
            (Except.ok none : Except MspError (Option (MspPacket P)))
            = [.ok none, .ok none, .ok none, .ok none, .ok none] := rfl
        rw [h5]
        simp
      · rw [runParse_append_fst, hpre1, runParse_append_fst, hdata1, hfin1]
        simp [MspParser.state_is_between_packets, MspParser.new]

end Msp

namespace Msp

/-- Claim C1 witness: the amended round trip at the spec scenario 1 frame
(command 2, request, payload 0xBE 0xEF) under the identity byte codec. -/
theorem claim_C1_witness :
    ∃ out : List Nat,
      MspPacket.serialize bytesPayload ⟨2, .Request, some [190, 239]⟩
          (MspPacket.packet_size_bytes bytesPayload ⟨2, .Request, some [190, 239]⟩)
        = some (.ok out) ∧
      out.length
        = MspPacket.packet_size_bytes bytesPayload ⟨2, .Request, some [190, 239]⟩ ∧
      (runParse bytesPayload MspParser.new out).2
        = List.replicate (out.length - 1) (Except.ok none)
          ++ [Except.ok (some ⟨2, .Request, some [190, 239]⟩)] ∧
      ((runParse bytesPayload MspParser.new out).1).state_is_between_packets
        = true :=
  claim_C1_roundtrip_v1_amended (List Nat) bytesPayload
    ⟨2, .Request, some [190, 239]⟩ [190, 239] rfl (by decide) (by decide)
    (by decide)
    (fun p hp => by injection hp with h; subst h; exact ⟨rfl, by decide⟩)

/-- Digesting an appended list is digesting the parts in order. -/
lemma crc8Update_append (a : Nat) (xs ys : List Nat) :
    crc8Update (crc8Update a xs) ys = crc8Update a (xs ++ ys) := by
  simp [crc8Update, List.foldl_append]

/-- Digesting the empty list leaves the accumulator unchanged. -/
lemma crc8Update_nil (a : Nat) : crc8Update a [] = a := rfl

/-- v2 serialization with a matching buffer and a length-consistent encoder
succeeds and produces the exact header, command and length little-endian
bytes, payload and CRC-8/DVB-S2 checksum. -/
lemma serialize_v2_ok {P : Type} (c : MspPayloadImpl P) (pkt : MspPacket P)
    (data : List Nat)
    (henc : (match pkt.data with
             | none => Except.ok ([] : List Nat)
             | some p => c.encode p) = .ok data)
    (hlen : data.length = (pkt.data.map c.len).getD 0) :
    MspPacket.serialize_v2 c pkt (pkt.packet_size_bytes_v2 c)
      = some (.ok ([36, 88, pkt.direction.toByte, 0,
                    pkt.cmd % 65536 % 256, pkt.cmd % 65536 / 256,
                    ((pkt.data.map c.len).getD 0) % 65536 % 256,
                    ((pkt.data.map c.len).getD 0) % 65536 / 256]
                   ++ data
                   ++ [crc8Update 0
                        ([0, pkt.cmd % 65536 % 256, pkt.cmd % 65536 / 256,
                          ((pkt.data.map c.len).getD 0) % 65536 % 256,
                          ((pkt.data.map c.len).getD 0) % 65536 / 256]
                         ++ data)])) := by
  simp [MspPacket.serialize_v2, MspPacket.packet_size_bytes_v2, henc, hlen]

/-- Claim C2 amended: the v2 round trip holds for every frame whose payload,
when present, encodes to between 1 and 65535 bytes consistently with its
declared length and decodes back to itself, for any 16-bit command.
Serialization into a buffer of exactly packet_size_bytes_v2 succeeds, feeding
the bytes to a fresh parser returns Ok none on every byte but the last and
the original frame on the final CRC byte. (A frame whose data is Some of a
zero-length payload comes back with data = None, the counterexample to the
original claim.) -/
theorem claim_C2_roundtrip_v2_amended :
    ∀ (P : Type) (c : MspPayloadImpl P) (pkt : MspPacket P) (data : List Nat),
      (match pkt.data with
       | none => Except.ok ([] : List Nat)
       | some p => c.encode p) = .ok data →
      data.length = (pkt.data.map c.len).getD 0 →
      (pkt.data.map c.len).getD 0 ≤ 65535 →
      pkt.cmd ≤ 65535 →
      (∀ p, pkt.data = some p → c.decode data = .ok p ∧ 1 ≤ c.len p) →
      ∃ out : List Nat,
        MspPacket.serialize_v2 c pkt (pkt.packet_size_bytes_v2 c)
          = some (.ok out) ∧
        out.length = pkt.packet_size_bytes_v2 c ∧
        (runParse c MspParser.new out).2
          = List.replicate (out.length - 1) (Except.ok none)
            ++ [Except.ok (some pkt)] ∧
        ((runParse c MspParser.new out).1).state_is_between_packets = true := by
  intro P c pkt data henc hlen hsz hcmd hdec
  obtain ⟨cmd, dir, dataOpt⟩ := pkt
  have hc16 : cmd % 65536 = cmd :=
    Nat.mod_eq_of_lt (lt_of_le_of_lt hcmd (by norm_num))
  cases dataOpt with
  | none =>
      have hd : data = [] := by
        have := henc
        simp only at this
        exact (Except.ok.inj this).symm
      subst hd
      have hser : MspPacket.serialize_v2 c ⟨cmd, dir, none⟩
          (MspPacket.packet_size_bytes_v2 c ⟨cmd, dir, none⟩)
          = some (.ok [36, 88, dir.toByte, 0, cmd % 256, cmd / 256, 0, 0,
              crc8Update (crc8Update (crc8UpdateByte 0 0)
                [cmd % 256, cmd / 256]) [0, 0]]) := by
        refine (serialize_v2_ok c ⟨cmd, dir, none⟩ [] henc hlen).trans ?_
        have hcB : crc8Update 0 [0, cmd % 256, cmd / 256, 0, 0]
            = crc8Update (crc8Update (crc8UpdateByte 0 0)
                [cmd % 256, cmd / 256]) [0, 0] := by
          rw [show crc8UpdateByte 0 0 = crc8Update 0 [0] from rfl,
            crc8Update_append, crc8Update_append]
          congr 1
        simp [hc16, hcB]
      have hrun : runParse c MspParser.new
          [36, 88, dir.toByte, 0, cmd % 256, cmd / 256, 0, 0,
            crc8Update (crc8Update (crc8UpdateByte 0 0)
              [cmd % 256, cmd / 256]) [0, 0]]
          = (⟨.Header1, .V2, .Request, 0, 0, [], 0, 0⟩,
             [.ok none, .ok none, .ok none, .ok none, .ok none, .ok none,
              .ok none, .ok none, .ok (some ⟨cmd, dir, none⟩)]) := by
        cases dir <;>
          simp [runParse, MspParser.parse, MspParser.new, MspParser.reset,
            versionTryFromByte, directionTryFromByte, MspPacketDirection.toByte,
            leU16, Nat.mod_add_div, crc8Update_nil]
      refine ⟨[36, 88, dir.toByte, 0, cmd % 256, cmd / 256, 0, 0,
          crc8Update (crc8Update (crc8UpdateByte 0 0)
            [cmd % 256, cmd / 256]) [0, 0]], hser, ?_, ?_, ?_⟩
      · simp [MspPacket.packet_size_bytes_v2]
      · rw [hrun]
        simp [List.replicate_succ]
      · rw [hrun]
        simp [MspParser.state_is_between_packets]
  | some p =>
      obtain ⟨hdecp, hlp⟩ := hdec p rfl
      have hlen1 : data.length = c.len p := by simpa using hlen
      have hsz1 : c.len p ≤ 65535 := by simpa using hsz
      have hd0 : data ≠ [] := by
        intro h
        rw [h] at hlen1
        simp at hlen1
        omega
      have hld : data.length ≠ 0 := by
        simpa [List.length_eq_zero] using hd0
      have hdl16 : data.length % 65536 = data.length :=
        Nat.mod_eq_of_lt (by omega)
      have hser : MspPacket.serialize_v2 c ⟨cmd, dir, some p⟩
          (MspPacket.packet_size_bytes_v2 c ⟨cmd, dir, some p⟩)
          = some (.ok ([36, 88, dir.toByte, 0, cmd % 256, cmd / 256,
              data.length % 256, data.length / 256]
              ++ (data
                  ++ [crc8Update (crc8Update (crc8Update (crc8UpdateByte 0 0)
                        [cmd % 256, cmd / 256])
                        [data.length % 256, data.length / 256]) data]))) := by
        refine (serialize_v2_ok c ⟨cmd, dir, some p⟩ data henc hlen).trans ?_
        have hgd : (((some p : Option P)).map c.len).getD 0 = data.length := by
          simpa using hlen1.symm
        have hcB : crc8Update 0
            ([0, cmd % 256, cmd / 256, data.length % 256, data.length / 256]
              ++ data)
            = crc8Update (crc8Update (crc8Update (crc8UpdateByte 0 0)
                [cmd % 256, cmd / 256])
                [data.length % 256, data.length / 256]) data := by
          rw [show crc8UpdateByte 0 0 = crc8Update 0 [0] from rfl,
            crc8Update_append, crc8Update_append, crc8Update_append]
          congr 1
        rw [hgd, hc16, hdl16, hcB]
        simp
      have hpre : runParse c MspParser.new
          [36, 88, dir.toByte, 0, cmd % 256, cmd / 256,
            data.length % 256, data.length / 256]
          = (⟨.DataV2, .V2, dir, cmd, data.length, [], 0,
              crc8Update (crc8Update (crc8UpdateByte 0 0)
                [cmd % 256, cmd / 256])
                [data.length % 256, data.length / 256]⟩,
             [.ok none, .ok none, .ok none, .ok none, .ok none, .ok none,
              .ok none, .ok none]) := by
        cases dir <;>
          simp [runParse, MspParser.parse, MspParser.new,
            versionTryFromByte, directionTryFromByte, MspPacketDirection.toByte,
            leU16, Nat.mod_add_div, hld]
      have hdata := runParse_data_v2 c data hd0 .V2 dir cmd [] 0
        (crc8Update (crc8Update (crc8UpdateByte 0 0)
          [cmd % 256, cmd / 256]) [data.length % 256, data.length / 256])
      simp only [List.nil_append] at hdata
      have hfin : runParse c
          ⟨.Crc, .V2, dir, cmd, 0, data, 0,
            crc8Update (crc8Update (crc8UpdateByte 0 0)
              [cmd % 256, cmd / 256]) [data.length % 256, data.length / 256]⟩
          [crc8Update (crc8Update (crc8Update (crc8UpdateByte 0 0)
              [cmd % 256, cmd / 256])
              [data.length % 256, data.length / 256]) data]
          = (⟨.Header1, .V2, .Request, 0, 0, [], 0, 0⟩,
             [.ok (some ⟨cmd, dir, some p⟩)]) := by
        simp [runParse, MspParser.parse, MspParser.reset, hd0, hdecp]
      have hpre1 : (runParse c MspParser.new
          [36, 88, dir.toByte, 0, cmd % 256, cmd / 256,
            data.length % 256, data.length / 256]).1
          = ⟨.DataV2, .V2, dir, cmd, data.length, [], 0,
              crc8Update (crc8Update (crc8UpdateByte 0 0)
                [cmd % 256, cmd / 256])
                [data.length % 256, data.length / 256]⟩ := by
        rw [hpre]
      have hpre2 : (runParse c MspParser.new
          [36, 88, dir.toByte, 0, cmd % 256, cmd / 256,
            data.length % 256, data.length / 256]).2
          = [.ok none, .ok none, .ok none, .ok none, .ok none, .ok none,
             .ok none, .ok none] := by
        rw [hpre]
      have hdata1 : (runParse c
          ⟨.DataV2, .V2, dir, cmd, data.length, [], 0,
            crc8Update (crc8Update (crc8UpdateByte 0 0)
              [cmd % 256, cmd / 256]) [data.length % 256, data.length / 256]⟩
          data).1
          = ⟨.Crc, .V2, dir, cmd, 0, data, 0,
              crc8Update (crc8Update (crc8UpdateByte 0 0)
                [cmd % 256, cmd / 256])
                [data.length % 256, data.length / 256]⟩ := by
        rw [hdata]
      have hdata2 : (runParse c
          ⟨.DataV2, .V2, dir, cmd, data.length, [], 0,
            crc8Update (crc8Update (crc8UpdateByte 0 0)
              [cmd % 256, cmd / 256]) [data.length % 256, data.length / 256]⟩
          data).2
          = List.replicate data.length (.ok none) := by
        rw [hdata]
      have hfin1 : (runParse c
          ⟨.Crc, .V2, dir, cmd, 0, data, 0,
            crc8Update (crc8Update (crc8UpdateByte 0 0)
              [cmd % 256, cmd / 256]) [data.length % 256, data.length / 256]⟩
          [crc8Update (crc8Update (crc8Update (crc8UpdateByte 0 0)
              [cmd % 256, cmd / 256])
              [data.length % 256, data.length / 256]) data]).1
          = ⟨.Header1, .V2, .Request, 0, 0, [], 0, 0⟩ := by
        rw [hfin]
      have hfin2 : (runParse c
          ⟨.Crc, .V2, dir, cmd, 0, data, 0,
            crc8Update (crc8Update (crc8UpdateByte 0 0)
              [cmd % 256, cmd / 256]) [data.length % 256, data.length / 256]⟩
          [crc8Update (crc8Update (crc8Update (crc8UpdateByte 0 0)
              [cmd % 256, cmd / 256])
              [data.length % 256, data.length / 256]) data]).2
          = [.ok (some ⟨cmd, dir, some p⟩)] := by
        rw [hfin]
      refine ⟨[36, 88, dir.toByte, 0, cmd % 256, cmd / 256,
          data.length % 256, data.length / 256]
          ++ (data
              ++ [crc8Update (crc8Update (crc8Update (crc8UpdateByte 0 0)
                    [cmd % 256, cmd / 256])
                    [data.length % 256, data.length / 256]) data]),
        hser, ?_, ?_, ?_⟩
      · simp only [List.length_append, List.length_cons, List.length_nil,
          MspPacket.packet_size_bytes_v2, Option.map_some', Option.getD_some]
        omega
      · have hol : (([36, 88, dir.toByte, 0, cmd % 256, cmd / 256,
            data.length % 256, data.length / 256]
            ++ (data
                ++ [crc8Update (crc8Update (crc8Update (crc8UpdateByte 0 0)
                      [cmd % 256, cmd / 256])
                      [data.length % 256, data.length / 256]) data])).length) - 1
            = 8 + data.length := by
          simp only [List.length_append, List.length_cons, List.length_nil]
          omega
        rw [runParse_append_snd, hpre1, hpre2, runParse_append_snd,
          hdata1, hdata2, hfin2, hol, List.replicate_add]
        have h8 : List.replicate 8
            (Except.ok none : Except MspError (Option (MspPacket P)))
            = [.ok none, .ok none, .ok none, .ok none, .ok none, .ok none,
               .ok none, .ok none] := rfl
        rw [h8]
        simp
      · rw [runParse_append_fst, hpre1, runParse_append_fst, hdata1, hfin1]
        simp [MspParser.state_is_between_packets]

/-- Claim C2 witness: the amended v2 round trip at a concrete frame with
command 300 and payload bytes 1, 2, 3 under the identity byte codec. -/
theorem claim_C2_witness :
    ∃ out : List Nat,
      MspPacket.serialize_v2 bytesPayload ⟨300, .Response, some [1, 2, 3]⟩
          (MspPacket.packet_size_bytes_v2 bytesPayload
            ⟨300, .Response, some [1, 2, 3]⟩)
        = some (.ok out) ∧
      out.length
        = MspPacket.packet_size_bytes_v2 bytesPayload
            ⟨300, .Response, some [1, 2, 3]⟩ ∧
      (runParse bytesPayload MspParser.new out).2
        = List.replicate (out.length - 1) (Except.ok none)
          ++ [Except.ok (some ⟨300, .Response, some [1, 2, 3]⟩)] ∧
      ((runParse bytesPayload MspParser.new out).1).state_is_between_packets
        = true :=
  claim_C2_roundtrip_v2_amended (List Nat) bytesPayload
    ⟨300, .Response, some [1, 2, 3]⟩ [1, 2, 3] rfl (by decide) (by decide)
    (by decide)
    (fun p hp => by injection hp with h; subst h; exact ⟨rfl, by decide⟩)

end Msp
